import Mathlib

/-!
Verification of the README analyzer (`ReadMeAnalyzer.analyze` and its two
rule catalogs) against its natural-language specification.

The document is modelled as a `List Char` (the decoded text).  Each
JavaScript regular-expression predicate of the source is translated into a
decidable Lean function over `List Char`; the aggregation loops of
`analyze` are translated into structural recursions over the rule
catalogs.  JavaScript exceptions are modelled with `Option`: a predicate
that throws returns `none`, an uncaught exception makes the surrounding
computation return `none`.
-/

namespace ReadmeRanker

/-- The backtick character (code 96), written via `Char.ofNat`. -/
def btick : Char := Char.ofNat 96

/-- JavaScript `\s` on the ASCII range: space, tab, newline, carriage
return, vertical tab, form feed.  (JavaScript also accepts Unicode
whitespace; the documents analysed here are ASCII.) -/
def isJsWs (c : Char) : Bool :=
  c = ' ' || c = '\t' || c = '\n' || c = '\r' || c = '\x0b' || c = '\x0c'

/-- JavaScript `\w`: ASCII letters, digits and underscore. -/
def isWordChar (c : Char) : Bool :=
  ('a' ≤ c && c ≤ 'z') || ('A' ≤ c && c ≤ 'Z') || ('0' ≤ c && c ≤ '9') || c = '_'

/-- The class `[A-Z]`. -/
def isUpperAZ (c : Char) : Bool := 'A' ≤ c && c ≤ 'Z'

/-- JavaScript `content.split('\n')`: split on every newline; the
result always has at least one element. -/
def splitLines : List Char → List (List Char)
  | [] => [[]]
  | c :: cs =>
    if c = '\n' then [] :: splitLines cs
    else
      match splitLines cs with
      | [] => [[c]]
      | l :: ls => (c :: l) :: ls

/-- Split on every line terminator (newline or carriage return): the
maximal runs free of terminators, i.e. the stretches that a JavaScript
`.` (which matches neither `\n` nor `\r`) can span. -/
def splitTermLines : List Char → List (List Char)
  | [] => [[]]
  | c :: cs =>
    if c = '\n' || c = '\r' then [] :: splitTermLines cs
    else
      match splitTermLines cs with
      | [] => [[c]]
      | l :: ls => (c :: l) :: ls

/-- Case-insensitive (ASCII) literal match: drop `w` from the front of
`s`, comparing lower-cased characters; `none` if `w` is not a prefix. -/
def dropCI : List Char → List Char → Option (List Char)
  | [], s => some s
  | _ :: _, [] => none
  | c :: cs, d :: ds => if c.toLower = d.toLower then dropCI cs ds else none

/-- Case-sensitive literal match, returning the rest after the literal. -/
def dropLit : List Char → List Char → Option (List Char)
  | [], s => some s
  | _ :: _, [] => none
  | c :: cs, d :: ds => if c = d then dropLit cs ds else none

/-- Word `w` occurs (case-insensitively) starting at the head of `s`. -/
def headIsCI (w : List Char) (s : List Char) : Bool := (dropCI w s).isSome

/-- Does `p` hold at some suffix of `l` (the regex engine trying every
start position, end-of-string included)? -/
def anyPos (p : List Char → Bool) : List Char → Bool
  | [] => p []
  | c :: cs => p (c :: cs) || anyPos p cs

/-- Case-insensitive substring containment. -/
def containsCI (w : List Char) (s : List Char) : Bool := anyPos (headIsCI w) s

/-- Containment of any of the given words, case-insensitively. -/
def containsAnyCI (ws : List (List Char)) (s : List Char) : Bool :=
  ws.any (fun w => containsCI w s)

/-- Does `p` hold right after some line terminator of `l`?  JavaScript's
multiline `^` matches after a newline or a carriage return (and after the
Unicode separators 2028/2029, which the ASCII documents here lack). -/
def afterNl (p : List Char → Bool) : List Char → Bool
  | [] => false
  | c :: cs => ((c = '\n' || c = '\r') && p cs) || afterNl p cs

/-- Multiline `^`: does `p` hold at the start of the string or right
after some newline? -/
def anyLineStart (p : List Char → Bool) (l : List Char) : Bool :=
  p l || afterNl p l

/-! ### Headings and fenced code blocks

`/^#+\s+/gm` matches, on a line, a leading run of hash marks followed by at
least one whitespace character; since `\s` also matches the newline, a line
that is nothing but hash marks still matches when another line follows it.
`map(h => h.trim().length)` turns each match into the number of hash
marks. -/

/-- The heading level contributed by one line (`isLast` marks the final
line, which has no terminating newline or carriage return to serve as
the `\s`). -/
def lineHeadingLevel (isLast : Bool) (line : List Char) : Option Nat :=
  let k := (line.takeWhile (fun c => c = '#')).length
  if k = 0 then none
  else
    match line.drop k with
    | [] => if isLast then none else some k
    | c :: _ => if isJsWs c then some k else none

/-- Heading levels of a list of lines, in order. -/
def headingLevelsAux : List (List Char) → List Nat
  | [] => []
  | [l] => (lineHeadingLevel true l).toList
  | l :: ls => (lineHeadingLevel false l).toList ++ headingLevelsAux ls

/-- The sequence of heading levels of the document: what
`(content.match(/^#+\s+/gm) || []).map(h => h.trim().length)` computes. -/
def headingLevels (content : List Char) : List Nat :=
  headingLevelsAux (splitTermLines content)

/-- JavaScript `(content.match(/```/g) || []).length`: the number of non-overlapping
triple-backtick fence markers, scanning left to right. -/
def fenceCount : List Char → Nat
  | c1 :: c2 :: c3 :: rest =>
    if c1 = btick && c2 = btick && c3 = btick then 1 + fenceCount rest
    else fenceCount (c2 :: c3 :: rest)
  | _ => 0

/-- Does the list contain three consecutive backticks (`/```/.test`)? -/
def hasTripleTick : List Char → Bool
  | c1 :: c2 :: c3 :: rest =>
    (c1 = btick && c2 = btick && c3 = btick) || hasTripleTick (c2 :: c3 :: rest)
  | _ => false

/-! ### Section-heading matches

`/##?\s*WORD/i`: one or two hash marks, any whitespace, then the word,
case-insensitively.  `hashRests s` lists the possible rests after `##?`
(at most one of them can be followed by `\s*WORD`, since the word never
starts with a hash). -/

/-- Rests after consuming `#` or `##` at the head of `s`. -/
def hashRests : List Char → List (List Char)
  | '#' :: cs =>
    match cs with
    | '#' :: cs2 => [cs, cs2]
    | _ => [cs]
  | _ => []

/-- Rest after `##?\s*w` for the first alternative `w` that fits. -/
def headRest (words : List (List Char)) (s : List Char) : Option (List Char) :=
  ((hashRests s).filterMap
    (fun r => (words.filterMap (fun w => dropCI w (r.dropWhile isJsWs))).head?)).head?

/-- Test `/##?\s*(w1|w2|...)/i.test(content)`. -/
def headTest (words : List (List Char)) (content : List Char) : Bool :=
  anyPos (fun s => (headRest words s).isSome) content

/-! ### Badge / image / link patterns (all confined to one line, since
`.` never matches a newline). -/

/-- Is there a `)` later on the line (before any line terminator)? -/
def closeAfter : List Char → Bool
  | [] => false
  | ')' :: _ => true
  | '\n' :: _ => false
  | '\r' :: _ => false
  | _ :: rest => closeAfter rest

/-- Find `](` and then a later `)`, all before any line terminator. -/
def seekBrkParen : List Char → Bool
  | ']' :: '(' :: rest => closeAfter rest
  | '\n' :: _ => false
  | '\r' :: _ => false
  | _ :: rest => seekBrkParen rest
  | [] => false

/-- One line matches `/!\[.*\]\(.*\)/`: `![`, then `](`, then `)`. -/
def badgeLine : List Char → Bool
  | '!' :: '[' :: rest => seekBrkParen rest || badgeLine ('[' :: rest)
  | _ :: rest => badgeLine rest
  | [] => false

/-- Test `/!\[.*\]\(.*\)/.test(content)`. -/
def badgesTest (content : List Char) : Bool :=
  (splitTermLines content).any badgeLine

/-- JavaScript `(content.match(/!\[.*\]\(.*\)/g) || []).length`: each line yields at
most one match (the greedy final `.*` swallows everything up to the last
closing parenthesis of the stretch), so the global count is the number of
terminator-free stretches containing the pattern. -/
def badgeCount (content : List Char) : Nat :=
  ((splitTermLines content).filter badgeLine).length

/-- After a keyword of the image pattern: `.*?\]\(.*\)`. -/
def imgAfterKw : List Char → Bool := seekBrkParen

/-- Scan for one of the image keywords (case-insensitively), then
`](`...`)`. -/
def imgScanKw : List Char → Bool
  | [] => false
  | '\n' :: _ => false
  | '\r' :: _ => false
  | c :: rest =>
    (match (["screenshot", "image", "demo", "preview"].map String.toList).filterMap
        (fun w => dropCI w (c :: rest)) |>.head? with
      | some r => imgAfterKw r
      | none => false)
    || imgScanKw rest

/-- One line matches `/!\[.*(screenshot|image|demo|preview).*?\]\(.*\)/i`. -/
def imageLine : List Char → Bool
  | '!' :: '[' :: rest => imgScanKw rest || imageLine ('[' :: rest)
  | _ :: rest => imageLine rest
  | [] => false

/-- The Images/Screenshots check. -/
def imagesTest (content : List Char) : Bool :=
  (splitTermLines content).any imageLine

/-- A `)` later on the same line. -/
def closeAfterSameLine : List Char → Bool
  | [] => false
  | '\n' :: _ => false
  | '\r' :: _ => false
  | ')' :: _ => true
  | _ :: rest => closeAfterSameLine rest

/-- After `](http`: `s?://`, then a `)` before the end of the line. -/
def linkAfterHttp (r : List Char) : Bool :=
  match dropLit (("://").toList) r with
  | some r2 => closeAfterSameLine r2
  | none =>
    match dropLit (("s://").toList) r with
    | some r2 => closeAfterSameLine r2
    | none => false

/-- After a `[`: scan the line for `](http`, then `s?://`...`)`. -/
def linkChainMid : List Char → Bool
  | [] => false
  | '\n' :: _ => false
  | '\r' :: _ => false
  | ']' :: rest =>
    (match dropLit (("(http").toList) rest with
      | some r => linkAfterHttp r
      | none => false)
    || linkChainMid rest
  | _ :: rest => linkChainMid rest

/-- Test `/\[.*?\]\(https?:\/\/.*?\)/.test(content)`. -/
def linksTest : List Char → Bool
  | [] => false
  | '[' :: rest => linkChainMid rest || linksTest rest
  | _ :: rest => linksTest rest

/-! ### Section bodies

Several extra checks first isolate a section with
`/##?\s*WORD([\s\S]*?)(?=\n##? |\n# |\n$)/i`: the lazy body extends until
the first position where a newline is followed by one or two hash marks
and a space, or until a newline that ends the string (`$` without the `m`
flag is end of input). -/

/-- The zero-width lookahead `(?=\n##? |\n# |\n$)`. -/
def stopHere : List Char → Bool
  | ['\n'] => true
  | '\n' :: '#' :: ' ' :: _ => true
  | '\n' :: '#' :: '#' :: ' ' :: _ => true
  | _ => false

/-- The lazy `[\s\S]*?` up to the first stop position; `none` when no
stop position exists (the whole match then fails). -/
def bodyUpTo : List Char → Option (List Char)
  | [] => none
  | c :: rest =>
    if stopHere (c :: rest) then some []
    else (bodyUpTo rest).map (fun b => c :: b)

/-- The captured section body (group 1) for the first start position
where the whole pattern matches, scanning left to right. -/
def sectionBodyScan (words : List (List Char)) : List Char → Option (List Char)
  | [] => none
  | c :: cs =>
    match (headRest words (c :: cs)).bind bodyUpTo with
    | some b => some b
    | none => sectionBodyScan words cs

/-- The value `match[0]` (the whole matched text, heading included) of the
Overview/Description pattern at one start position. -/
def descMatchAt (words : List (List Char)) (s : List Char) : Option (List Char) :=
  match headRest words s with
  | none => none
  | some rest =>
    match bodyUpTo rest with
    | none => none
    | some body => some (s.take (s.length - rest.length + body.length))

/-- The whole matched text for the first start position that matches. -/
def descMatch (words : List (List Char)) : List Char → Option (List Char)
  | [] => none
  | c :: cs =>
    match descMatchAt words (c :: cs) with
    | some m => some m
    | none => descMatch words cs

/-- JavaScript `trim()` on the ASCII range. -/
def trimWs (s : List Char) : List Char :=
  ((s.dropWhile isJsWs).reverse.dropWhile isJsWs).reverse

/-- The two words of the Description patterns. -/
def descWords : List (List Char) := [("overview").toList, ("description").toList]

/-! ### The individual predicates of the two catalogs. -/

/-- Title: `/^#\s.+/m`. -/
def titleTest (content : List Char) : Bool :=
  anyLineStart
    (fun s =>
      match s with
      | '#' :: w :: c :: _ => isJsWs w && c ≠ '\n' && c ≠ '\r'
      | _ => false)
    content

/-- Description: `/##?\s*(Overview|Description)/i`. -/
def descriptionTest (content : List Char) : Bool := headTest descWords content

/-- Installation: `/##?\s*Installation/i`. -/
def installationTest (content : List Char) : Bool :=
  headTest [("installation").toList] content

/-- Usage: `/##?\s*Usage/i`. -/
def usageTest (content : List Char) : Bool := headTest [("usage").toList] content

/-- Example: `/##?\s*Example/i`. -/
def exampleTest (content : List Char) : Bool := headTest [("example").toList] content

/-- Contributing: `/##?\s*Contributing/i`. -/
def contributingTest (content : List Char) : Bool :=
  headTest [("contributing").toList] content

/-- License: `/##?\s*License/i`. -/
def licenseTest (content : List Char) : Bool := headTest [("license").toList] content

/-- The character class `[\w\s\-]` of the Proper Title Format pattern. -/
def isTitleClass (c : Char) : Bool := isWordChar c || isJsWs c || c = '-'

/-- Pattern `/^# [A-Z][\w\s\-]+$/m` at a line start: `# `, an upper-case letter,
then at least one class character; since the class contains the line
terminators, the multiline `$` can only be found at a newline or carriage
return inside the class run (past its first character) or at the end of
the string when the run reaches it. -/
def properTitleAt : List Char → Bool
  | '#' :: ' ' :: c :: rest =>
    isUpperAZ c &&
      (let r := rest.takeWhile isTitleClass
       !r.isEmpty &&
         ((r.drop 1).any (fun x => x = '\n' || x = '\r') || r.length = rest.length))
  | _ => false

/-- Proper Title Format. -/
def properTitle (content : List Char) : Bool := anyLineStart properTitleAt content

/-- Description Length: the matched text of the Overview/Description
pattern, minus its first line, joined with spaces and trimmed, is longer
than 50 characters. -/
def descriptionLength (content : List Char) : Bool :=
  match descMatch descWords content with
  | none => false
  | some m => 50 < (trimWs (List.intercalate [' '] ((splitLines m).drop 1))).length

/-- Table of Contents: `/##?\s*Table of Contents/i`. -/
def tableOfContents (content : List Char) : Bool :=
  headTest [("table of contents").toList] content

/-- Multiple Badges: more than one global match of the badge pattern. -/
def multipleBadges (content : List Char) : Bool := 1 < badgeCount content

/-- Lists: `/^(\s*[-*+]|\d+\.)\s+/m` at a line start.  In the first
alternative `\s*` may even run across newlines before the bullet. -/
def listsAt (s : List Char) : Bool :=
  (match s.dropWhile isJsWs with
    | b :: c :: _ => (b = '-' || b = '*' || b = '+') && isJsWs c
    | _ => false)
  ||
  (let ds := s.takeWhile Char.isDigit
   !ds.isEmpty &&
     (match s.drop ds.length with
      | '.' :: c :: _ => isJsWs c
      | _ => false))

/-- Lists. -/
def listsTest (content : List Char) : Bool := anyLineStart listsAt content

/-- The character class `[-\s|:]` of the table-separator row. -/
def isTableClass (c : Char) : Bool := c = '-' || isJsWs c || c = '|' || c = ':'

/-- After a leading `|` of the separator row: at least one class
character, then a literal `|`. -/
def barAfterClass : List Char → Bool
  | [] => false
  | c :: rest => c = '|' || (isTableClass c && barAfterClass rest)

/-- Tail `[-\s|:]+\|` after the separator row's opening bar. -/
def classPlusBar : List Char → Bool
  | [] => false
  | c :: rest => isTableClass c && barAfterClass rest

/-- After the second `|` of the header row: at least one non-newline
character, then the newline, then `|`, then the separator tail. -/
def nlScan : List Char → Bool
  | [] => false
  | '\n' :: rest =>
    (match rest with
      | '|' :: r => classPlusBar r
      | _ => false)
  | '\r' :: _ => false
  | _ :: rest => nlScan rest

/-- Tail `.+\n\|[-\s|:]+\|` after the second bar. -/
def afterBar2 : List Char → Bool
  | [] => false
  | c :: rest => c ≠ '\n' && c ≠ '\r' && nlScan rest

/-- Scan for the second `|` of the header row (any position on the same
line, at least one character after the first bar). -/
def barThenRest : List Char → Bool
  | [] => false
  | c :: rest =>
    if c = '\n' || c = '\r' then false
    else (c = '|' && afterBar2 rest) || barThenRest rest

/-- Pattern `/\|.+\|.+\n\|[-\s|:]+\|/m` at one start position. -/
def tableAt : List Char → Bool
  | '|' :: c :: rest => c ≠ '\n' && c ≠ '\r' && barThenRest rest
  | _ => false

/-- Tables. -/
def tablesTest (content : List Char) : Bool := anyPos tableAt content

/-- After an opening backtick: at least one non-backtick character, then
a closing backtick. -/
def tickScan : List Char → Bool
  | [] => false
  | c :: rest => c = btick || tickScan rest

/-- Middle part of the inline-code pattern: nonempty run of non-backticks, then a backtick. -/
def afterTick : List Char → Bool
  | [] => false
  | c :: rest => c ≠ btick && tickScan rest

/-- Inline Code: a backtick, at least one non-backtick, a backtick. -/
def inlineCode : List Char → Bool
  | [] => false
  | c :: rest => (c = btick && afterTick rest) || inlineCode rest

/-- Blockquotes: `/^>\s.+/m`. -/
def blockquotes (content : List Char) : Bool :=
  anyLineStart
    (fun s =>
      match s with
      | '>' :: w :: c :: _ => isJsWs w && c ≠ '\n' && c ≠ '\r'
      | _ => false)
    content

/-- Consistent Heading Levels: with more than one heading, every level
must equal the first level or the first level plus one. -/
def consistentHeadings (content : List Char) : Bool :=
  let hs := headingLevels content
  if 1 < hs.length then
    match hs with
    | h0 :: _ => hs.all (fun h => h = h0 || h = h0 + 1)
    | [] => true
  else true

/-- No Placeholder Text: none of the placeholder markers occurs. -/
def noPlaceholder (content : List Char) : Bool :=
  !containsAnyCI
    [("todo").toList, ("tbd").toList, ("lorem ipsum").toList, ("replace this").toList]
    content

/-- First branch of the broken-markdown pattern: `#+[^ \n]` — some hash
mark followed by a character that is neither a space nor a newline. -/
def brokenA : List Char → Bool
  | '#' :: c :: rest => (c ≠ ' ' && c ≠ '\n') || brokenA (c :: rest)
  | _ :: rest => brokenA rest
  | [] => false

/-- Tail of the broken-link branch after `](`: at least one non-`)`
character, then only non-`)` characters up to a newline or the end. -/
def brokenScan : List Char → Bool
  | [] => true
  | '\n' :: _ => true
  | '\r' :: _ => true
  | c :: rest => c ≠ ')' && brokenScan rest

/-- Tail `[^)]+\s*$` (with the `m` flag) after `](`. -/
def brokenLinkTail : List Char → Bool
  | [] => false
  | c :: rest => c ≠ ')' && brokenScan rest

/-- Inside `[^\]]*`, looking for the first `]`; it must be followed by
`(` and the broken tail. -/
def brokenAfterLB : List Char → Bool
  | [] => false
  | ']' :: rest =>
    (match rest with
      | '(' :: r => brokenLinkTail r
      | _ => false)
  | _ :: rest => brokenAfterLB rest

/-- Second branch: `\[[^\]]*\]\([^)]+\s*$`. -/
def brokenB : List Char → Bool
  | [] => false
  | '[' :: rest => brokenAfterLB rest || brokenB rest
  | _ :: rest => brokenB rest

/-- No Broken Markdown: neither branch matches. -/
def noBrokenMarkdown (content : List Char) : Bool :=
  !(brokenA content || brokenB content)

/-- Installation Section Has Code. -/
def installationHasCode (content : List Char) : Bool :=
  match sectionBodyScan [("installation").toList] content with
  | some b => hasTripleTick b
  | none => false

/-- Usage Section Has Code. -/
def usageHasCode (content : List Char) : Bool :=
  match sectionBodyScan [("usage").toList] content with
  | some b => hasTripleTick b
  | none => false

/-- Example Section Has Code. -/
def exampleHasCode (content : List Char) : Bool :=
  match sectionBodyScan [("example").toList] content with
  | some b => hasTripleTick b
  | none => false

/-- Contributing Section Has Guidelines. -/
def contributingGuidelines (content : List Char) : Bool :=
  match sectionBodyScan [("contributing").toList] content with
  | some b =>
    containsAnyCI
      [("pull request").toList, ("issue").toList, ("contribut").toList,
        ("guideline").toList, ("how to").toList] b
  | none => false

/-- License Section Has License Name. -/
def licenseNameCheck (content : List Char) : Bool :=
  match sectionBodyScan [("license").toList] content with
  | some b =>
    containsAnyCI
      [("mit").toList, ("apache").toList, ("gpl").toList, ("bsd").toList,
        ("mozilla").toList, ("unlicense").toList, ("lgpl").toList, ("cc").toList] b
  | none => false

/-! ### Catalogs, report model, and the analyzer -/

/-- One rule of either catalog: name, predicate, weight, remediation. -/
structure Criterion where
  name : String
  check : List Char → Bool
  score : Nat
  suggestion : String

/-- The primary (section) catalog, in source order, with the source's
weights and remediation strings. -/
def sectionCriteria : List Criterion :=
  [⟨"Title", titleTest, 10, "Add a title at the top using \"# Project Name\"."⟩,
   ⟨"Description", descriptionTest, 10, "Add a description section."⟩,
   ⟨"Installation", installationTest, 10, "Add an Installation section."⟩,
   ⟨"Usage", usageTest, 10, "Add a Usage section."⟩,
   ⟨"Example", exampleTest, 5, "Add an Example section."⟩,
   ⟨"Contributing", contributingTest, 5, "Add a Contributing section."⟩,
   ⟨"License", licenseTest, 10, "Add a License section."⟩,
   ⟨"Badges", badgesTest, 5, "Add badges (e.g., build, coverage, npm version)."⟩]

/-- The secondary (extra) catalog, in source order. -/
def extraCriteria : List Criterion :=
  [⟨"Proper Title Format", properTitle, 3,
    "Use a clear, properly capitalized project title."⟩,
   ⟨"Description Length", descriptionLength, 3,
    "Provide a more detailed project description."⟩,
   ⟨"Table of Contents", tableOfContents, 3, "Add a Table of Contents section."⟩,
   ⟨"Multiple Badges", multipleBadges, 2,
    "Add more badges (e.g., build, coverage, npm version)."⟩,
   ⟨"Images/Screenshots", imagesTest, 3,
    "Add images or screenshots to illustrate your project."⟩,
   ⟨"Links", linksTest, 2,
    "Add relevant links (e.g., documentation, homepage, issues)."⟩,
   ⟨"Lists", listsTest, 2, "Use lists to organize information."⟩,
   ⟨"Tables", tablesTest, 2, "Add tables for structured data."⟩,
   ⟨"Inline Code", inlineCode, 2, "Use inline code for commands or filenames."⟩,
   ⟨"Blockquotes", blockquotes, 1, "Use blockquotes for tips or notes."⟩,
   ⟨"Consistent Heading Levels", consistentHeadings, 2,
    "Use consistent heading levels for structure."⟩,
   ⟨"No Placeholder Text", noPlaceholder, 2,
    "Remove placeholder text like TODO, TBD, or lorem ipsum."⟩,
   ⟨"No Broken Markdown", noBrokenMarkdown, 2,
    "Fix broken Markdown syntax (headings, links, etc)."⟩,
   ⟨"Installation Section Has Code", installationHasCode, 2,
    "Add code blocks to the Installation section."⟩,
   ⟨"Usage Section Has Code", usageHasCode, 2,
    "Add code blocks to the Usage section."⟩,
   ⟨"Example Section Has Code", exampleHasCode, 1,
    "Add code blocks to the Example section."⟩,
   ⟨"Contributing Section Has Guidelines", contributingGuidelines, 1,
    "Add contribution guidelines to the Contributing section."⟩,
   ⟨"License Section Has License Name", licenseNameCheck, 1,
    "Specify the license type in the License section."⟩]

/-- Outcome of one rule: presence flag, points awarded, optional
remediation (present exactly when the rule is unsatisfied). -/
structure RuleOutcome where
  present : Bool
  score : Nat
  suggestion : Option String
deriving DecidableEq

/-- Outcome of the length metric. -/
structure LengthOutcome where
  lines : Nat
  score : Nat
  suggestion : Option String
deriving DecidableEq

/-- Outcome of the formatting metric; `codeBlocks` is the JavaScript
number `matches / 2`, an exact dyadic rational. -/
structure FormattingOutcome where
  headings : Nat
  codeBlocks : ℚ
  score : Nat
  suggestion : Option String
deriving DecidableEq

/-- The analysis report returned by `analyze`. -/
structure AnalysisReport where
  totalScore : Nat
  maxScore : Nat
  sections : List (String × RuleOutcome)
  length : LengthOutcome
  formatting : FormattingOutcome
  extras : List (String × RuleOutcome)
  suggestions : List String
deriving DecidableEq

/-- Accumulator of one catalog loop: outcome map, score so far, maximum
so far, suggestions pushed so far. -/
structure FoldResult where
  outcomes : List (String × RuleOutcome)
  total : Nat
  maxTotal : Nat
  sugs : List String
deriving DecidableEq

/-- The section-criteria loop of `analyze`: presence flag, score, and
the remediation pushed for every absent section. -/
def runSections : List Criterion → List Char → FoldResult
  | [], _ => ⟨[], 0, 0, []⟩
  | crit :: rest, content =>
    let present := crit.check content
    let r := runSections rest content
    ⟨(crit.name,
        ⟨present, if present then crit.score else 0,
          if present then none else some crit.suggestion⟩) :: r.outcomes,
      (if present then crit.score else 0) + r.total,
      crit.score + r.maxTotal,
      (if present then [] else [crit.suggestion]) ++ r.sugs⟩

/-- The extra-criteria loop of `analyze`; the remediation is pushed only
when it is a truthy (non-empty) string. -/
def runExtras : List Criterion → List Char → FoldResult
  | [], _ => ⟨[], 0, 0, []⟩
  | crit :: rest, content =>
    let present := crit.check content
    let r := runExtras rest content
    ⟨(crit.name,
        ⟨present, if present then crit.score else 0,
          if present then none else some crit.suggestion⟩) :: r.outcomes,
      (if present then crit.score else 0) + r.total,
      crit.score + r.maxTotal,
      (if present then []
       else if crit.suggestion = "" then []
       else [crit.suggestion]) ++ r.sugs⟩

/-- Length check of `analyze`: score by the `lines.length` buckets of
the source (`< 10`, `> 200`, otherwise). -/
def lengthScoreOf (n : Nat) : Nat :=
  if n < 10 then 0 else if 200 < n then 5 else 10

/-- Length check of `analyze`: the remediation of each bucket. -/
def lengthSuggestionOf (n : Nat) : Option String :=
  if n < 10 then some ("README is too short. Add more details.")
  else if 200 < n then
    some ("README is very long. Consider splitting into sections or separate docs.")
  else none

/-- Formatting check of `analyze`: score from the heading count and the
(rational) code-block count. -/
def formattingScoreOf (h : Nat) (cb : ℚ) : Nat :=
  if h < 3 then 0 else if cb < 1 then 0 else 10

/-- Formatting check of `analyze`: the remediation of each branch. -/
def formattingSuggestionOf (h : Nat) (cb : ℚ) : Option String :=
  if h < 3 then some ("Add more headings to organize your README.")
  else if cb < 1 then some ("Add code blocks for examples or usage instructions.")
  else none

/-- The code-block count of the formatting check: the JavaScript number
`(content.match(/```/g) || []).length / 2` (true division). -/
def codeBlockCountOf (content : List Char) : ℚ := (fenceCount content : ℚ) / 2

/-- The length check, the formatting check, and the final report object
of `analyze`, given the results of the two catalog loops. -/
def assembleReport (content : List Char) (sec ex : FoldResult) : AnalysisReport :=
  let n := (splitLines content).length
  let headingCount := (headingLevels content).length
  let cb := codeBlockCountOf content
  { totalScore := sec.total + lengthScoreOf n + formattingScoreOf headingCount cb + ex.total
    maxScore := sec.maxTotal + 10 + 10 + ex.maxTotal
    sections := sec.outcomes
    length := ⟨n, lengthScoreOf n, lengthSuggestionOf n⟩
    formatting := ⟨headingCount, cb, formattingScoreOf headingCount cb,
      formattingSuggestionOf headingCount cb⟩
    extras := ex.outcomes
    suggestions := sec.sugs ++ (lengthSuggestionOf n).toList
      ++ (formattingSuggestionOf headingCount cb).toList ++ ex.sugs }

/-- The aggregator `ReadMeAnalyzer.analyze`, parametric in the two
catalogs: section loop, length check, formatting check, extra loop. -/
def analyzeWith (secs extras : List Criterion) (content : List Char) : AnalysisReport :=
  assembleReport content (runSections secs content) (runExtras extras content)

/-- The analyzer on the fixed catalogs of the source. -/
def analyze (content : List Char) : AnalysisReport :=
  analyzeWith sectionCriteria extraCriteria content

/-! ### The exception-aware model

JavaScript predicates can in principle throw; `CriterionE` gives each
rule a partial predicate (`none` = the predicate throws on that input).
The extra-criteria loop of the source wraps each call in `try/catch` and
turns a fault into `present = false`; the section-criteria loop has no
such guard, so a faulting section predicate aborts `analyze` (modelled by
the whole run returning `none`). -/

/-- A rule whose predicate may throw. -/
structure CriterionE where
  name : String
  check : List Char → Option Bool
  score : Nat
  suggestion : String

/-- A total rule, viewed as a never-throwing partial rule. -/
def liftCriterion (cr : Criterion) : CriterionE :=
  ⟨cr.name, fun c => some (cr.check c), cr.score, cr.suggestion⟩

/-- The section loop with exception propagation: no per-rule guard. -/
def runSectionsE : List CriterionE → List Char → Option FoldResult
  | [], _ => some ⟨[], 0, 0, []⟩
  | crit :: rest, content =>
    match crit.check content with
    | none => none
    | some present =>
      match runSectionsE rest content with
      | none => none
      | some r =>
        some ⟨(crit.name,
            ⟨present, if present then crit.score else 0,
              if present then none else some crit.suggestion⟩) :: r.outcomes,
          (if present then crit.score else 0) + r.total,
          crit.score + r.maxTotal,
          (if present then [] else [crit.suggestion]) ++ r.sugs⟩

/-- The extra loop with its per-rule `try/catch`: a fault becomes
`present = false` and the loop continues. -/
def runExtrasE : List CriterionE → List Char → FoldResult
  | [], _ => ⟨[], 0, 0, []⟩
  | crit :: rest, content =>
    let present := (crit.check content).getD false
    let r := runExtrasE rest content
    ⟨(crit.name,
        ⟨present, if present then crit.score else 0,
          if present then none else some crit.suggestion⟩) :: r.outcomes,
      (if present then crit.score else 0) + r.total,
      crit.score + r.maxTotal,
      (if present then []
       else if crit.suggestion = "" then []
       else [crit.suggestion]) ++ r.sugs⟩

/-- The analyzer over partial predicates: `none` when an unguarded
(section) predicate faults. -/
def analyzeWithE (secs extras : List CriterionE) (content : List Char) :
    Option AnalysisReport :=
  (runSectionsE secs content).map
    (fun sec => assembleReport content sec (runExtrasE extras content))

/-- The source's section catalog, viewed as partial rules. -/
def sectionCriteriaE : List CriterionE := sectionCriteria.map liftCriterion

/-- The source's extra catalog, viewed as partial rules. -/
def extraCriteriaE : List CriterionE := extraCriteria.map liftCriterion

/-! ### Structural lemmas about the loops -/

theorem splitLines_ne_nil (l : List Char) : splitLines l ≠ [] := by
  induction l with
  | nil => simp [splitLines]
  | cons c cs ih =>
    simp only [splitLines]
    split
    · simp
    · cases h : splitLines cs <;> simp

theorem splitLines_length_pos (l : List Char) : 1 ≤ (splitLines l).length := by
  have h := splitLines_ne_nil l
  cases hs : splitLines l with
  | nil => exact absurd hs h
  | cons x xs => simp

theorem runSections_total_eq (secs : List Criterion) (c : List Char) :
    (runSections secs c).total
      = ((runSections secs c).outcomes.map (fun p => p.2.score)).sum := by
  induction secs with
  | nil => simp [runSections]
  | cons crit rest ih => simp [runSections, ih]

theorem runSections_maxTotal (secs : List Criterion) (c : List Char) :
    (runSections secs c).maxTotal = (secs.map Criterion.score).sum := by
  induction secs with
  | nil => simp [runSections]
  | cons crit rest ih => simp [runSections, ih]

theorem runSections_total_le (secs : List Criterion) (c : List Char) :
    (runSections secs c).total ≤ (runSections secs c).maxTotal := by
  induction secs with
  | nil => simp [runSections]
  | cons crit rest ih =>
    simp only [runSections]
    refine Nat.add_le_add ?_ ih
    split <;> simp

theorem runSections_outcomes_length (secs : List Criterion) (c : List Char) :
    (runSections secs c).outcomes.length = secs.length := by
  induction secs with
  | nil => simp [runSections]
  | cons crit rest ih => simp [runSections, ih]

theorem runSections_sugs (secs : List Criterion) (c : List Char) :
    (runSections secs c).sugs
      = (runSections secs c).outcomes.filterMap (fun p => p.2.suggestion) := by
  induction secs with
  | nil => simp [runSections]
  | cons crit rest ih =>
    cases hc : crit.check c <;> simp [runSections, hc, ih]

theorem runExtras_total_eq (extras : List Criterion) (c : List Char) :
    (runExtras extras c).total
      = ((runExtras extras c).outcomes.map (fun p => p.2.score)).sum := by
  induction extras with
  | nil => simp [runExtras]
  | cons crit rest ih => simp [runExtras, ih]

theorem runExtras_maxTotal (extras : List Criterion) (c : List Char) :
    (runExtras extras c).maxTotal = (extras.map Criterion.score).sum := by
  induction extras with
  | nil => simp [runExtras]
  | cons crit rest ih => simp [runExtras, ih]

theorem runExtras_total_le (extras : List Criterion) (c : List Char) :
    (runExtras extras c).total ≤ (runExtras extras c).maxTotal := by
  induction extras with
  | nil => simp [runExtras]
  | cons crit rest ih =>
    simp only [runExtras]
    refine Nat.add_le_add ?_ ih
    split <;> simp

theorem runExtras_outcomes_length (extras : List Criterion) (c : List Char) :
    (runExtras extras c).outcomes.length = extras.length := by
  induction extras with
  | nil => simp [runExtras]
  | cons crit rest ih => simp [runExtras, ih]

theorem runExtras_sugs (extras : List Criterion) (c : List Char)
    (hne : ∀ cr ∈ extras, ¬cr.suggestion = "") :
    (runExtras extras c).sugs
      = (runExtras extras c).outcomes.filterMap (fun p => p.2.suggestion) := by
  induction extras with
  | nil => simp [runExtras]
  | cons crit rest ih =>
    have h1 : ¬crit.suggestion = "" := hne crit (by simp)
    have h2 := ih (fun cr hcr => hne cr (by simp [hcr]))
    cases hc : crit.check c <;> simp [runExtras, hc, h1, h2]

/-! ### Bridge between the total analyzer and the exception-aware one -/

theorem runSectionsE_lift (secs : List Criterion) (c : List Char) :
    runSectionsE (secs.map liftCriterion) c = some (runSections secs c) := by
  induction secs with
  | nil => simp [runSectionsE, runSections]
  | cons crit rest ih =>
    simp [runSectionsE, runSections, liftCriterion, ih]

theorem runExtrasE_lift (extras : List Criterion) (c : List Char) :
    runExtrasE (extras.map liftCriterion) c = runExtras extras c := by
  induction extras with
  | nil => simp [runExtrasE, runExtras]
  | cons crit rest ih =>
    simp [runExtrasE, runExtras, liftCriterion, ih]

/-- On the source's (never-throwing) catalogs the exception-aware
analyzer never propagates a fault and agrees with `analyze`. -/
theorem analyzeWithE_lift (c : List Char) :
    analyzeWithE sectionCriteriaE extraCriteriaE c = some (analyze c) := by
  simp [analyzeWithE, sectionCriteriaE, extraCriteriaE, runSectionsE_lift,
    runExtrasE_lift, analyze, analyzeWith]

theorem runExtrasE_append_outcomes (pre post : List CriterionE) (c : List Char) :
    (runExtrasE (pre ++ post) c).outcomes
      = (runExtrasE pre c).outcomes ++ (runExtrasE post c).outcomes := by
  induction pre with
  | nil => simp [runExtrasE]
  | cons crit rest ih => simp [runExtrasE, ih]

theorem runExtrasE_outcomes_length (extras : List CriterionE) (c : List Char) :
    (runExtrasE extras c).outcomes.length = extras.length := by
  induction extras with
  | nil => simp [runExtrasE]
  | cons crit rest ih => simp [runExtrasE, ih]

theorem runExtrasE_fault_head (crit : CriterionE) (post : List CriterionE)
    (c : List Char) (h : crit.check c = none) :
    (runExtrasE (crit :: post) c).outcomes
      = (crit.name, ⟨false, 0, some crit.suggestion⟩) :: (runExtrasE post c).outcomes := by
  simp [runExtrasE, h]

/-! ### Spec-side metric tables (for the refinement claims C5 and C6) -/

/-- Stated from the spec's words (length metric, section 4.3): fewer
than 10 lines scores 0 with the too-short remediation, 10 through 200
lines inclusive scores 10 with no remediation, more than 200 lines
scores 5 with the very-long remediation. -/
def lengthMetricSpec (n : Nat) : LengthOutcome :=
  if n < 10 then ⟨n, 0, some ("README is too short. Add more details.")⟩
  else if n ≤ 200 then ⟨n, 10, none⟩
  else ⟨n, 5, some ("README is very long. Consider splitting into sections or separate docs.")⟩

/-- Stated from the amended spec's words (formatting metric): the
code-block count is the exact rational `fences / 2`; fewer than 3
headings scores 0 with the headings remediation, otherwise a code-block
count below 1 scores 0 with the code-block remediation, otherwise the
score is 10 with no remediation. -/
def formattingMetricSpec (h fences : Nat) : FormattingOutcome :=
  if h < 3 then
    ⟨h, (fences : ℚ) / 2, 0, some ("Add more headings to organize your README.")⟩
  else if (fences : ℚ) / 2 < 1 then
    ⟨h, (fences : ℚ) / 2, 0, some ("Add code blocks for examples or usage instructions.")⟩
  else ⟨h, (fences : ℚ) / 2, 10, none⟩

/-! ### Concrete documents used as test inputs -/

/-- A document whose headings have levels 1, 2, 2, 4. -/
def docHeads : List Char := ("# a\n## b\n## c\n#### d").toList

/-- A document consisting of a single unclosed code fence. -/
def docFence : List Char := ("```").toList

/-- A synthetic rule whose predicate throws on every input. -/
def boomCriterion : CriterionE := ⟨"Boom", fun _ => none, 5, "Boom remediation."⟩

/-! ### The claims -/

/-- C1: for every document, `totalScore` is the sum of the score fields
of the 8 section outcomes, the length outcome, the formatting outcome and
the 18 extra outcomes, and `maxScore` is the constant 121 = 65 (primary
weights) + 10 (length) + 10 (formatting) + 36 (secondary weights). -/
theorem analyze_score_decomposition (c : List Char) :
    (analyze c).sections.length = 8 ∧ (analyze c).extras.length = 18 ∧
    (analyze c).totalScore
      = ((analyze c).sections.map (fun p => p.2.score)).sum
        + (analyze c).length.score + (analyze c).formatting.score
        + ((analyze c).extras.map (fun p => p.2.score)).sum ∧
    (analyze c).maxScore = 121 := by
  have hsec : (analyze c).sections = (runSections sectionCriteria c).outcomes := rfl
  have hex : (analyze c).extras = (runExtras extraCriteria c).outcomes := rfl
  have htot : (analyze c).totalScore
      = (runSections sectionCriteria c).total
        + lengthScoreOf (splitLines c).length
        + formattingScoreOf (headingLevels c).length (codeBlockCountOf c)
        + (runExtras extraCriteria c).total := rfl
  have hmax : (analyze c).maxScore
      = (runSections sectionCriteria c).maxTotal + 10 + 10
        + (runExtras extraCriteria c).maxTotal := rfl
  refine ⟨?_, ?_, ?_, ?_⟩
  · rw [hsec, runSections_outcomes_length]; rfl
  · rw [hex, runExtras_outcomes_length]; rfl
  · rw [hsec, hex, htot, runSections_total_eq, runExtras_total_eq]; rfl
  · rw [hmax, runSections_maxTotal, runExtras_maxTotal]; rfl

/-- C2: for every document, `0 ≤ totalScore ≤ maxScore`. -/
theorem analyze_bounded (c : List Char) :
    0 ≤ (analyze c).totalScore ∧ (analyze c).totalScore ≤ (analyze c).maxScore := by
  refine ⟨Nat.zero_le _, ?_⟩
  have htot : (analyze c).totalScore
      = (runSections sectionCriteria c).total
        + lengthScoreOf (splitLines c).length
        + formattingScoreOf (headingLevels c).length (codeBlockCountOf c)
        + (runExtras extraCriteria c).total := rfl
  have hmax : (analyze c).maxScore
      = (runSections sectionCriteria c).maxTotal + 10 + 10
        + (runExtras extraCriteria c).maxTotal := rfl
  rw [htot, hmax]
  have h1 := runSections_total_le sectionCriteria c
  have h2 := runExtras_total_le extraCriteria c
  have h3 : lengthScoreOf (splitLines c).length ≤ 10 := by
    unfold lengthScoreOf
    split
    · simp
    · split <;> simp
  have h4 : formattingScoreOf (headingLevels c).length (codeBlockCountOf c) ≤ 10 := by
    unfold formattingScoreOf
    split
    · simp
    · split <;> simp
  omega

/-- C3, counterexample: on the empty document the total score is 6, not
0 as the claim states (the three negation-style extra rules are
satisfied by an empty text). -/
theorem analyze_empty_total_ne_zero :
    (analyze []).totalScore = 6 ∧ ¬(analyze []).totalScore = 0 := by decide

/-- C3, amended: on the empty document `analyze` still produces a
complete report (8 section outcomes, 18 extra outcomes); no section rule
and neither metric is satisfied, the three negation-style extras
(Consistent Heading Levels, No Placeholder Text, No Broken Markdown) are
satisfied, and the total score is 6 against the fixed maximum 121. -/
theorem analyze_empty_report :
    (analyze []).sections.length = 8 ∧ (analyze []).extras.length = 18 ∧
    ((analyze []).sections.all (fun p => !p.2.present)) = true ∧
    (analyze []).length.score = 0 ∧ (analyze []).formatting.score = 0 ∧
    ((analyze []).extras.map (fun p => (p.1, p.2.present)))
      = [("Proper Title Format", false), ("Description Length", false),
         ("Table of Contents", false), ("Multiple Badges", false),
         ("Images/Screenshots", false), ("Links", false), ("Lists", false),
         ("Tables", false), ("Inline Code", false), ("Blockquotes", false),
         ("Consistent Heading Levels", true), ("No Placeholder Text", true),
         ("No Broken Markdown", true), ("Installation Section Has Code", false),
         ("Usage Section Has Code", false), ("Example Section Has Code", false),
         ("Contributing Section Has Guidelines", false),
         ("License Section Has License Name", false)] ∧
    (analyze []).totalScore = 6 ∧ (analyze []).maxScore = 121 := by decide

/-- C5: for every document the length outcome follows the spec's bucket
table on the line count (fewer than 10 lines scores 0 with the too-short
remediation, 10 through 200 inclusive scores 10 with no remediation,
more than 200 scores 5 with the very-long remediation), and the length
metric contributes the constant 10 to `maxScore`. -/
theorem analyze_length_metric (c : List Char) :
    (analyze c).length = lengthMetricSpec ((splitLines c).length) ∧
    (analyze c).maxScore
      = (sectionCriteria.map Criterion.score).sum + 10 + 10
        + (extraCriteria.map Criterion.score).sum := by
  constructor
  · have h : (analyze c).length
        = ⟨(splitLines c).length, lengthScoreOf (splitLines c).length,
            lengthSuggestionOf (splitLines c).length⟩ := rfl
    rw [h]
    unfold lengthMetricSpec lengthScoreOf lengthSuggestionOf
    split_ifs <;> first | rfl | omega
  · have hmax : (analyze c).maxScore
        = (runSections sectionCriteria c).maxTotal + 10 + 10
          + (runExtras extraCriteria c).maxTotal := rfl
    rw [hmax, runSections_maxTotal, runExtras_maxTotal]

/-- C6, counterexample: on a document consisting of a single unclosed
fence marker the reported code-block count is the exact rational 1/2,
not the floor value 0 required by the claim. -/
theorem analyze_codeBlocks_not_floored :
    fenceCount docFence = 1 ∧
    (analyze docFence).formatting.codeBlocks = (1 : ℚ) / 2 ∧
    ¬(analyze docFence).formatting.codeBlocks = ((1 / 2 : ℕ) : ℚ) := by
  have hfc : fenceCount docFence = 1 := by decide
  have hcb : (analyze docFence).formatting.codeBlocks
      = ((fenceCount docFence : ℚ)) / 2 := rfl
  refine ⟨hfc, ?_, ?_⟩
  · rw [hcb, hfc]; norm_num
  · rw [hcb, hfc]; norm_num

/-- C6, amended: for every document the formatting outcome reports the
code-block count as the exact rational `fences / 2` (a trailing unclosed
fence contributes one half instead of being dropped) and scores by the
claimed branches: heading count below 3 scores 0 with the headings
remediation, otherwise code-block count below 1 scores 0 with the
code-block remediation, otherwise 10 with no remediation. -/
theorem analyze_formatting_metric (c : List Char) :
    (analyze c).formatting
      = formattingMetricSpec ((headingLevels c).length) (fenceCount c) := by
  have h : (analyze c).formatting
      = ⟨(headingLevels c).length, codeBlockCountOf c,
          formattingScoreOf (headingLevels c).length (codeBlockCountOf c),
          formattingSuggestionOf (headingLevels c).length (codeBlockCountOf c)⟩ := rfl
  rw [h]
  unfold formattingMetricSpec formattingScoreOf formattingSuggestionOf codeBlockCountOf
  split_ifs <;> rfl

/-- C7: for every document the suggestion list is exactly the
remediations of the unsatisfied rules and metrics, verbatim and in
order: primary catalog, length metric, formatting metric, secondary
catalog. -/
theorem analyze_suggestions_order (c : List Char) :
    (analyze c).suggestions
      = ((analyze c).sections.filterMap (fun p => p.2.suggestion))
        ++ (analyze c).length.suggestion.toList
        ++ (analyze c).formatting.suggestion.toList
        ++ ((analyze c).extras.filterMap (fun p => p.2.suggestion)) := by
  have h : (analyze c).suggestions
      = (runSections sectionCriteria c).sugs
        ++ (lengthSuggestionOf (splitLines c).length).toList
        ++ (formattingSuggestionOf (headingLevels c).length (codeBlockCountOf c)).toList
        ++ (runExtras extraCriteria c).sugs := rfl
  rw [h, runSections_sugs, runExtras_sugs]
  · rfl
  · decide

/-- C8: `analyze` is deterministic — identical document text yields an
identical report. -/
theorem analyze_deterministic (c1 c2 : List Char) (h : c1 = c2) :
    analyze c1 = analyze c2 := by rw [h]

/-- Witness for C8 at a concrete document. -/
theorem analyze_deterministic_witness :
    analyze (("# Hi").toList) = analyze (("# Hi").toList) :=
  analyze_deterministic (("# Hi").toList) (("# Hi").toList) rfl

/-- C10: for every document the reported line count is at least 1, and
the empty document is reported as 1 line, scoring 0 with the too-short
remediation. -/
theorem analyze_lines_positive (c : List Char) :
    1 ≤ (analyze c).length.lines ∧
    (analyze []).length
      = ⟨1, 0, some ("README is too short. Add more details.")⟩ := by
  constructor
  · have h : (analyze c).length.lines = (splitLines c).length := rfl
    rw [h]
    exact splitLines_length_pos c
  · rfl

/-- C4, counterexample: the section-criteria loop has no per-rule fault
boundary, so a throwing predicate in the primary catalog aborts
`analyze` — no report is produced, contradicting the claim that a fault
in either catalog is swallowed. -/
theorem analyzeWithE_section_fault_propagates :
    analyzeWithE (boomCriterion :: sectionCriteriaE) extraCriteriaE [] = none := rfl

/-- C4, amended: for a rule of the secondary (extra) catalog a throwing
predicate is caught by the per-rule guard: `analyze` still returns a
report, the faulting rule's outcome is unsatisfied with 0 points and its
remediation, and every other extra rule is still evaluated.  (The
primary loop has no such guard, but its regex predicates are total.) -/
theorem analyzeWithE_extra_fault_fail_closed (pre post : List CriterionE)
    (crit : CriterionE) (c : List Char) (h : crit.check c = none) :
    ∃ r, analyzeWithE sectionCriteriaE (pre ++ crit :: post) c = some r ∧
      r.extras = (runExtrasE pre c).outcomes
        ++ ((crit.name, (⟨false, 0, some crit.suggestion⟩ : RuleOutcome))
            :: (runExtrasE post c).outcomes) ∧
      r.extras.length = pre.length + 1 + post.length := by
  refine ⟨assembleReport c (runSections sectionCriteria c)
      (runExtrasE (pre ++ crit :: post) c), ?_, ?_, ?_⟩
  · simp [analyzeWithE, sectionCriteriaE, runSectionsE_lift]
  · show (runExtrasE (pre ++ crit :: post) c).outcomes = _
    rw [runExtrasE_append_outcomes, runExtrasE_fault_head _ _ _ h]
  · show (runExtrasE (pre ++ crit :: post) c).outcomes.length = _
    rw [runExtrasE_outcomes_length]
    simp [List.length_append]
    omega

/-- Witness for C4's amended theorem: a synthetic throwing extra rule,
followed by a lifted real rule, on the empty document. -/
theorem analyzeWithE_extra_fault_fail_closed_witness :
    ∃ r, analyzeWithE sectionCriteriaE
        [boomCriterion,
          liftCriterion ⟨"Inline Code", inlineCode, 2,
            "Use inline code for commands or filenames."⟩] [] = some r ∧
      r.extras = [(("Boom" : String),
          (⟨false, 0, some ("Boom remediation.")⟩ : RuleOutcome)),
        (("Inline Code" : String),
          (⟨false, 0, some ("Use inline code for commands or filenames.")⟩ : RuleOutcome))] ∧
      r.extras.length = 0 + 1 + 1 :=
  analyzeWithE_extra_fault_fail_closed []
    [liftCriterion ⟨"Inline Code", inlineCode, 2,
      "Use inline code for commands or filenames."⟩] boomCriterion [] rfl

/-- C9: the Consistent Heading Levels predicate is satisfied exactly
when the document has at most one heading or every heading level equals
the first level or the first level plus one; on the document with
heading levels 1, 2, 2, 4 the rule is unsatisfied in the report. -/
theorem consistentHeadings_characterization :
    (∀ c : List Char, consistentHeadings c = true ↔
        ((headingLevels c).length ≤ 1 ∨
          ∀ h ∈ headingLevels c,
            h = (headingLevels c).headD 0 ∨ h = (headingLevels c).headD 0 + 1)) ∧
    headingLevels docHeads = [1, 2, 2, 4] ∧
    consistentHeadings docHeads = false ∧
    ((analyze docHeads).extras.lookup ("Consistent Heading Levels"))
      = some ⟨false, 0, some ("Use consistent heading levels for structure.")⟩ := by
  refine ⟨?_, by decide, by decide, by decide⟩
  intro c
  unfold consistentHeadings
  cases hs : headingLevels c with
  | nil => simp
  | cons h0 t =>
    cases t with
    | nil => simp
    | cons h1 t2 => simp [List.all_eq_true]

end ReadmeRanker
